import Mathlib

/-!
Verification development for the audio spatialization engine of the
Sleep-Soundscape-Synthesizer repository.

The embedding below is a shallow model of `src/audio/spatialize.py`
(functions `get_audio_duration`, `create_stereo_spatial_mix`,
`create_multichannel_wav`) and of the pan-law computation of
`archive/spatialize_audio.py` (function `spatialize_audio`).

Modelling conventions:
- audio durations (seconds) and config values are rationals;
- the external audio engine (ffmpeg/ffprobe) is an oracle: `probe`
  returns the measured duration of a file (`none` models a
  `CalledProcessError` of ffprobe), `concatOk i` tells whether the
  concat invocation for layer `i` exits 0, `renderOk` whether the final
  render invocation exits 0;
- Python's global `random` module is modelled by `PyRandom`: an RNG
  state type together with `seed` (which discards the previous state,
  exactly as `random.seed`) and an in-place `shuffle` returning the
  permuted list and the successor state;
- every external engine invocation is recorded as an `Event`, in
  program order, so claims about "which invocations happened before
  the failure" are claims about the event trace;
- Python's `sorted` on file names (code-point lexicographic) is
  modelled by an insertion sort over a code-point lexicographic
  comparison on the character data, and `str.endswith` by a suffix
  test on the character data.
-/

/-- Model of `str.endswith`: suffix test on the character data. -/
def strEndsWith (s suf : String) : Bool := List.isSuffixOf suf.data s.data

/-- Code-point lexicographic comparison of character lists, the order used
by Python's `sorted` on `str`. -/
def charListLe : List Char → List Char → Bool
  | [], _ => true
  | _ :: _, [] => false
  | c :: cs, d :: ds =>
    if c.toNat = d.toNat then charListLe cs ds else decide (c.toNat < d.toNat)

/-- String comparison used to model `sorted`. -/
def strLeb (a b : String) : Bool := charListLe a.data b.data

/-- Insertion into a sorted list of strings. -/
def insertSorted (x : String) : List String → List String
  | [] => [x]
  | y :: ys => if strLeb x y then x :: y :: ys else y :: insertSorted x ys

/-- Model of Python's `sorted` on a list of file names. -/
def sortStrings : List String → List String
  | [] => []
  | x :: xs => insertSorted x (sortStrings xs)

/-- Model of `os.path.join(dir, file)`. -/
def pyJoin (dir file : String) : String := dir ++ "/" ++ file

/-- The spatialization section of the configuration, as read by
`create_stereo_spatial_mix` / `create_multichannel_wav` (with the
`spatial_config.get(...)` defaults already resolved). -/
structure SpatialConfig where
  numLayers : Nat
  stereoPositions : List ℚ
  volumeAdjustments : List ℚ
  timeOffsets : List ℚ
  shuffleClips : Bool
  reuseClips : Bool
  targetDurationMinutes : Option ℚ
deriving DecidableEq

/-- Model of Python's global `random` module: `seed n` resets the hidden
state from the integer `n` (discarding the previous state), `shuffle`
permutes a list in place and advances the state. -/
structure PyRandom (σ : Type) where
  seed : Nat → σ
  shuffle : σ → List String → List String × σ

/-- The external audio engine (ffprobe/ffmpeg) as an oracle.
`probe p = none` models ffprobe exiting non-zero on file `p`;
`concatOk i` is the exit status of the concat invocation for layer `i`;
`renderOk` is the exit status of the final render invocation. -/
structure EngineOracle where
  probe : String → Option ℚ
  concatOk : Nat → Bool
  renderOk : Bool

/-- Model of `get_audio_duration`: returns the probed duration, or `0.0`
when ffprobe fails (the `except subprocess.CalledProcessError` branch
logs the error and returns `0.0`). -/
def get_audio_duration (E : EngineOracle) (filePath : String) : ℚ :=
  (E.probe filePath).getD 0

/-- One external engine invocation, in program order. -/
inductive Event
  | probe (path : String)
  | concat (layerIdx : Nat)
  | render
deriving DecidableEq

/-- Number of concat invocations (= layer tracks whose build was
attempted) in a trace. -/
def concatCount (es : List Event) : Nat :=
  (es.filter (fun e => match e with | .concat _ => true | _ => false)).length

/-- How a run of either compiler terminates.  `ok` is `return True`;
the three `fail*` outcomes are the distinct `return False` sites;
`indexError` is an uncaught Python `IndexError` from a positional
config-array access. -/
inductive Outcome
  | ok
  | emptyPool
  | concatFailed (layerIdx : Nat)
  | renderFailed
  | indexError
deriving DecidableEq

/-- Result of a run: how it ended, the engine invocations performed (in
order), the temporary layer-track files still existing on disk
afterwards, and the per-layer clip sequences that were scheduled. -/
structure RunResult where
  outcome : Outcome
  events : List Event
  temps : List String
  plans : List (List String)
deriving DecidableEq

/-- `repeat_factor = max(1, int(target_seconds / estimated_total_duration))`
(lines 116/409 of `spatialize.py`; `int` truncates, which is `⌊·⌋` for the
nonnegative values arising here). -/
def repeatFactor (targetSeconds estimatedTotal : ℚ) : Nat :=
  max 1 (Int.toNat ⌊targetSeconds / estimatedTotal⌋)

/-- Stereo path, clip discovery:
`all_clips = sorted([f for f in os.listdir(clips_dir) if f.endswith('.mp3')])`. -/
def stereoAllClips (listing : List String) : List String :=
  sortStrings (listing.filter (fun f => strEndsWith f ".mp3"))

/-- Stereo path, duration estimation: probe the first `min(5, n)` clips,
average them, and scale by the pool size; if the sampled total is not
positive, fall back to an average of `10.0` seconds. -/
def stereoEstimatedTotal (E : EngineOracle) (clipsDir : String)
    (allClips : List String) : ℚ :=
  let sample := allClips.take (min 5 allClips.length)
  let total := (sample.map (fun c => get_audio_duration E (pyJoin clipsDir c))).foldl (· + ·) 0
  if 0 < total then (total / ((min 5 allClips.length : Nat) : ℚ)) * (allClips.length : ℚ)
  else 10 * (allClips.length : ℚ)

/-- Stereo path, target-duration handling: when a positive target is set
and `reuse_clips` holds, repeat the pool `repeat_factor` times (the
extension is only performed when the factor exceeds 1). -/
def stereoExtendClips (cfg : SpatialConfig) (reuse : Bool) (est : ℚ)
    (allClips : List String) : List String :=
  match cfg.targetDurationMinutes with
  | some t =>
    if 0 < t then
      if reuse then
        if 1 < repeatFactor (t * 60) est then (List.replicate (repeatFactor (t * 60) est) allClips).flatten
        else allClips
      else allClips
    else allClips
  | none => allClips

/-- The contiguous slice of the (possibly extended) pool assigned to
layer `idx` when `reuse_clips = False`:
`start_idx = layer_idx * clips_per_layer`,
`end_idx = start_idx + clips_per_layer` except that the last layer
absorbs the remainder (`end_idx = len(all_clips)`). -/
def layerPartition (numLayers cpl : Nat) (clips : List String) (idx : Nat) :
    List String :=
  let startIdx := idx * cpl
  let endIdx := if idx < numLayers - 1 then startIdx + cpl else clips.length
  (clips.drop startIdx).take (endIdx - startIdx)

/-- Stereo path, per-layer clip selection together with the successor
RNG state (lines 140-153): with `reuse_clips` every layer copies the
whole pool, otherwise it takes its contiguous partition; with `shuffle`
the global RNG is reseeded with `layer_idx * 12345` and the list is
shuffled in place. -/
def stereoLayerStep {σ : Type} (R : PyRandom σ) (shuffle reuse : Bool)
    (numLayers cpl : Nat) (clips : List String) (idx : Nat) (s : σ) :
    List String × σ :=
  if reuse then
    if shuffle then R.shuffle (R.seed (idx * 12345)) clips else (clips, s)
  else
    let part := layerPartition numLayers cpl clips idx
    if shuffle then R.shuffle (R.seed (idx * 12345)) part else (part, s)

/-- The clip sequence scheduled for layer `idx` on the stereo path
(the first component of `stereoLayerStep`, which does not depend on the
incoming RNG state because `random.seed` is called before any use). -/
def stereoLayerSeq {σ : Type} (R : PyRandom σ) (shuffle reuse : Bool)
    (numLayers cpl : Nat) (clips : List String) (idx : Nat) : List String :=
  if reuse then
    if shuffle then (R.shuffle (R.seed (idx * 12345)) clips).1 else clips
  else
    let part := layerPartition numLayers cpl clips idx
    if shuffle then (R.shuffle (R.seed (idx * 12345)) part).1 else part

/-- State of the per-layer loop of `create_stereo_spatial_mix` after it
stops or completes: `halted = some o` means the function terminated
early with outcome `o`. -/
structure StLoop where
  halted : Option Outcome
  events : List Event
  temps : List String
  plans : List (List String)
deriving DecidableEq

/-- Temporary track file of stereo layer `idx`. -/
def stereoTempPath (idx : Nat) : String :=
  "output/final/temp_stereo_layer_" ++ toString idx ++ ".mp3"

/-- The per-layer loop of `create_stereo_spatial_mix` (lines 138-196):
for each layer, derive its clip sequence, read its position / volume /
offset (an out-of-range index raises `IndexError`, uncaught, so no
cleanup happens), then invoke the engine to concatenate the layer's
clips into a temporary track; on a failed concat every existing
temporary track is removed and the function returns `False`. -/
def stereoLayersLoop (E : EngineOracle) {σ : Type} (R : PyRandom σ)
    (shuffle reuse : Bool) (numLayers cpl : Nat)
    (positions volumes offsets : List ℚ) (clips : List String) :
    Nat → Nat → σ → List Event → List String → List (List String) → StLoop
  | 0, _, _, es, ts, ps => ⟨none, es, ts, ps⟩
  | rem + 1, idx, s, es, ts, ps =>
    let step := stereoLayerStep R shuffle reuse numLayers cpl clips idx s
    if positions.length ≤ idx ∨ volumes.length ≤ idx ∨ offsets.length ≤ idx then
      ⟨some .indexError, es, ts, ps⟩
    else
      if E.concatOk idx then
        stereoLayersLoop E R shuffle reuse numLayers cpl positions volumes offsets clips
          rem (idx + 1) step.2 (es ++ [Event.concat idx])
          (ts ++ [stereoTempPath idx]) (ps ++ [step.1])
      else
        ⟨some (.concatFailed idx), es ++ [Event.concat idx], [], ps⟩

/-- Model of `create_stereo_spatial_mix`.  `listing` is the directory
listing of `clips_dir`; `shuffleArg` / `reuseArg` are the optional
function arguments (`None` falls back to the config); `s0` is the
ambient state of the global `random` module at entry. -/
def create_stereo_spatial_mix (E : EngineOracle) {σ : Type} (R : PyRandom σ)
    (s0 : σ) (clipsDir : String) (cfg : SpatialConfig)
    (shuffleArg reuseArg : Option Bool) (listing : List String) : RunResult :=
  let shuffle := shuffleArg.getD cfg.shuffleClips
  let reuse := reuseArg.getD cfg.reuseClips
  let allClips := stereoAllClips listing
  if allClips.isEmpty then ⟨.emptyPool, [], [], []⟩
  else
    let probeEvents := (allClips.take (min 5 allClips.length)).map
      (fun c => Event.probe (pyJoin clipsDir c))
    let est := stereoEstimatedTotal E clipsDir allClips
    let clips := stereoExtendClips cfg reuse est allClips
    let cpl := if reuse then clips.length else clips.length / cfg.numLayers
    let lp := stereoLayersLoop E R shuffle reuse cfg.numLayers cpl
      cfg.stereoPositions cfg.volumeAdjustments cfg.timeOffsets clips
      cfg.numLayers 0 s0 probeEvents [] []
    match lp.halted with
    | some o => ⟨o, lp.events, lp.temps, lp.plans⟩
    | none =>
      if E.renderOk then ⟨.ok, lp.events ++ [Event.render], [], lp.plans⟩
      else ⟨.renderFailed, lp.events ++ [Event.render], [], lp.plans⟩

/-- The full per-layer schedule derived by the stereo path: discovery,
duration estimation, target-duration extension, then per-layer clip
selection for each of the `num_layers` layers. -/
def stereoSchedule (E : EngineOracle) {σ : Type} (R : PyRandom σ)
    (clipsDir : String) (cfg : SpatialConfig)
    (shuffleArg reuseArg : Option Bool) (listing : List String) :
    List (List String) :=
  let shuffle := shuffleArg.getD cfg.shuffleClips
  let reuse := reuseArg.getD cfg.reuseClips
  let allClips := stereoAllClips listing
  let est := stereoEstimatedTotal E clipsDir allClips
  let clips := stereoExtendClips cfg reuse est allClips
  let cpl := if reuse then clips.length else clips.length / cfg.numLayers
  (List.range cfg.numLayers).map
    (stereoLayerSeq R shuffle reuse cfg.numLayers cpl clips)

/-- Multichannel path, clip discovery (line 380, identical to the stereo
path). -/
def multiAllClips (listing : List String) : List String :=
  sortStrings (listing.filter (fun f => strEndsWith f ".mp3"))

/-- Multichannel path, duration estimation (lines 389-400, identical to
the stereo path). -/
def multiEstimatedTotal (E : EngineOracle) (clipsDir : String)
    (allClips : List String) : ℚ :=
  let sample := allClips.take (min 5 allClips.length)
  let total := (sample.map (fun c => get_audio_duration E (pyJoin clipsDir c))).foldl (· + ·) 0
  if 0 < total then (total / ((min 5 allClips.length : Nat) : ℚ)) * (allClips.length : ℚ)
  else 10 * (allClips.length : ℚ)

/-- Multichannel path, target-duration handling (lines 403-417,
identical to the stereo path). -/
def multiExtendClips (cfg : SpatialConfig) (reuse : Bool) (est : ℚ)
    (allClips : List String) : List String :=
  match cfg.targetDurationMinutes with
  | some t =>
    if 0 < t then
      if reuse then
        if 1 < repeatFactor (t * 60) est then (List.replicate (repeatFactor (t * 60) est) allClips).flatten
        else allClips
      else allClips
    else allClips
  | none => allClips

/-- Multichannel path, per-layer clip selection with the successor RNG
state (lines 435-448, identical to the stereo path). -/
def multiLayerStep {σ : Type} (R : PyRandom σ) (shuffle reuse : Bool)
    (numLayers cpl : Nat) (clips : List String) (idx : Nat) (s : σ) :
    List String × σ :=
  if reuse then
    if shuffle then R.shuffle (R.seed (idx * 12345)) clips else (clips, s)
  else
    let part := layerPartition numLayers cpl clips idx
    if shuffle then R.shuffle (R.seed (idx * 12345)) part else (part, s)

/-- The clip sequence scheduled for layer `idx` on the multichannel
path. -/
def multiLayerSeq {σ : Type} (R : PyRandom σ) (shuffle reuse : Bool)
    (numLayers cpl : Nat) (clips : List String) (idx : Nat) : List String :=
  if reuse then
    if shuffle then (R.shuffle (R.seed (idx * 12345)) clips).1 else clips
  else
    let part := layerPartition numLayers cpl clips idx
    if shuffle then (R.shuffle (R.seed (idx * 12345)) part).1 else part

/-- Temporary track file of multichannel layer `idx`. -/
def multiTempPath (idx : Nat) : String :=
  "output/final/temp_layer_" ++ toString idx ++ ".wav"

/-- A node of the multichannel processing graph handed to the engine:
`adelay` shifts a layer by `delay_ms` milliseconds, `apad` pads a layer
with silence up to `whole_dur` seconds, `join` multiplexes the padded
layers into one N-channel stream. -/
inductive FilterNode
  | adelay (layer : Nat) (delayMs : Int)
  | apad (layer : Nat) (wholeDur : ℚ)
  | joinChannels (inputs : Nat)
deriving DecidableEq

/-- The multichannel filter graph (lines 506-524): per layer an optional
delay (only when `time_offset > 0`, with `delay_ms = int(offset*1000)`)
followed by a pad to `max_duration`, then one join of all layers. -/
def multiFilterParts (numLayers : Nat) (offsets : List ℚ) (maxDur : ℚ) :
    List FilterNode :=
  ((List.range numLayers).map (fun i =>
    let off := offsets.getD i 0
    (if 0 < off then [FilterNode.adelay i (Int.toNat ⌊off * 1000⌋)] else []) ++
    [FilterNode.apad i maxDur])).flatten
  ++ [FilterNode.joinChannels numLayers]

/-- The shared duration the multichannel loop accumulates: starting from
`0.0`, the running maximum of each layer's measured track duration plus
its own time offset (lines 431, 485-487). -/
def multiMaxDuration (E : EngineOracle) (offsets : List ℚ) (n : Nat) : ℚ :=
  (List.range n).foldl
    (fun acc i => max acc (get_audio_duration E (multiTempPath i) + offsets.getD i 0)) 0

/-- State of the per-layer loop of `create_multichannel_wav` after it
stops or completes. -/
structure McLoop where
  halted : Option Outcome
  events : List Event
  temps : List String
  plans : List (List String)
  maxDur : ℚ
deriving DecidableEq

/-- The per-layer loop of `create_multichannel_wav` (lines 433-501): for
each layer, derive its clip sequence, read its time offset (an
out-of-range index raises `IndexError`, uncaught), concatenate the
layer's clips into a temporary mono track, probe that track's duration
and fold it (plus the offset) into the running maximum; on a failed
concat every existing temporary track is removed and the function
returns `False`. -/
def multiLayersLoop (E : EngineOracle) {σ : Type} (R : PyRandom σ)
    (shuffle reuse : Bool) (numLayers cpl : Nat)
    (offsets : List ℚ) (clips : List String) :
    Nat → Nat → σ → List Event → List String → List (List String) → ℚ → McLoop
  | 0, _, _, es, ts, ps, m => ⟨none, es, ts, ps, m⟩
  | rem + 1, idx, s, es, ts, ps, m =>
    let step := multiLayerStep R shuffle reuse numLayers cpl clips idx s
    if offsets.length ≤ idx then
      ⟨some .indexError, es, ts, ps, m⟩
    else
      if E.concatOk idx then
        multiLayersLoop E R shuffle reuse numLayers cpl offsets clips
          rem (idx + 1) step.2
          (es ++ [Event.concat idx, Event.probe (multiTempPath idx)])
          (ts ++ [multiTempPath idx]) (ps ++ [step.1])
          (max m (get_audio_duration E (multiTempPath idx) + offsets.getD idx 0))
      else
        ⟨some (.concatFailed idx), es ++ [Event.concat idx], [], ps, m⟩

/-- Result of a multichannel run: as `RunResult`, plus the shared
`max_duration` and the compiled filter graph (empty when the run halts
before graph compilation). -/
structure MultiRunResult where
  outcome : Outcome
  events : List Event
  temps : List String
  plans : List (List String)
  maxDur : ℚ
  filter : List FilterNode
deriving DecidableEq

/-- Model of `create_multichannel_wav`, with the same conventions as
`create_stereo_spatial_mix`. -/
def create_multichannel_wav (E : EngineOracle) {σ : Type} (R : PyRandom σ)
    (s0 : σ) (clipsDir : String) (cfg : SpatialConfig)
    (shuffleArg reuseArg : Option Bool) (listing : List String) :
    MultiRunResult :=
  let shuffle := shuffleArg.getD cfg.shuffleClips
  let reuse := reuseArg.getD cfg.reuseClips
  let allClips := multiAllClips listing
  if allClips.isEmpty then ⟨.emptyPool, [], [], [], 0, []⟩
  else
    let probeEvents := (allClips.take (min 5 allClips.length)).map
      (fun c => Event.probe (pyJoin clipsDir c))
    let est := multiEstimatedTotal E clipsDir allClips
    let clips := multiExtendClips cfg reuse est allClips
    let cpl := if reuse then clips.length else clips.length / cfg.numLayers
    let lp := multiLayersLoop E R shuffle reuse cfg.numLayers cpl
      cfg.timeOffsets clips cfg.numLayers 0 s0 probeEvents [] [] 0
    match lp.halted with
    | some o => ⟨o, lp.events, lp.temps, lp.plans, lp.maxDur, []⟩
    | none =>
      let filter := multiFilterParts cfg.numLayers cfg.timeOffsets lp.maxDur
      if E.renderOk then
        ⟨.ok, lp.events ++ [Event.render], [], lp.plans, lp.maxDur, filter⟩
      else
        ⟨.renderFailed, lp.events ++ [Event.render], [], lp.plans, lp.maxDur, filter⟩

/-- The full per-layer schedule derived by the multichannel path
(lines 380-448), mirroring `stereoSchedule`. -/
def multiSchedule (E : EngineOracle) {σ : Type} (R : PyRandom σ)
    (clipsDir : String) (cfg : SpatialConfig)
    (shuffleArg reuseArg : Option Bool) (listing : List String) :
    List (List String) :=
  let shuffle := shuffleArg.getD cfg.shuffleClips
  let reuse := reuseArg.getD cfg.reuseClips
  let allClips := multiAllClips listing
  let est := multiEstimatedTotal E clipsDir allClips
  let clips := multiExtendClips cfg reuse est allClips
  let cpl := if reuse then clips.length else clips.length / cfg.numLayers
  (List.range cfg.numLayers).map
    (multiLayerSeq R shuffle reuse cfg.numLayers cpl clips)

/-- Pan-law gains of `archive/spatialize_audio.py` (lines 78-79):
`left_gain = (1.0 - pan_value) / 2.0 * volume`. -/
def left_gain (panValue volume : ℚ) : ℚ := (1 - panValue) / 2 * volume

/-- Pan-law gains of `archive/spatialize_audio.py` (lines 78-79):
`right_gain = (1.0 + pan_value) / 2.0 * volume`. -/
def right_gain (panValue volume : ℚ) : ℚ := (1 + panValue) / 2 * volume

/-- A concrete engine oracle for witnesses: every probe measures 10
seconds, every invocation succeeds. -/
def testEngine : EngineOracle := ⟨fun _ => some 10, fun _ => true, true⟩

/-- A concrete RNG model for witnesses: stateless, shuffling by
reversal (a permutation, as `random.shuffle` always produces). -/
def revRandom : PyRandom Unit := ⟨fun _ => (), fun s l => (l.reverse, s)⟩

/-- The default configuration values of `create_stereo_spatial_mix`
(lines 64-72). -/
def baseConfig : SpatialConfig :=
  ⟨3, [-(7:ℚ)/10, 0, 7/10], [6/10, 8/10, 6/10], [0, 5, 10], true, true, none⟩

/-- Claim C6: the stereo pan-law gains are
`left_gain = (1 - pan)/2 × volume` and `right_gain = (1 + pan)/2 × volume`,
so `pan = -1, volume = 1` gives gains `(1, 0)`, `pan = 0` gives an equal
`0.5 × volume` split, and `pan = +1` gives gains `(0, volume)`. -/
theorem pan_law_boundaries :
    (∀ p v : ℚ, left_gain p v = (1 - p) / 2 * v ∧ right_gain p v = (1 + p) / 2 * v) ∧
    (left_gain (-1) 1 = 1 ∧ right_gain (-1) 1 = 0) ∧
    (∀ v : ℚ, left_gain 0 v = 1 / 2 * v ∧ right_gain 0 v = 1 / 2 * v) ∧
    (∀ v : ℚ, left_gain 1 v = 0 ∧ right_gain 1 v = v) := by
  refine ⟨fun p v => ⟨rfl, rfl⟩, ⟨?_, ?_⟩, fun v => ⟨?_, ?_⟩, fun v => ⟨?_, ?_⟩⟩ <;>
    norm_num [left_gain, right_gain]

/-- Claim C2, counterexample: with a target of 2 minutes (120 s) and an
estimated pool duration of 70 s, the code's repeat factor is
`max(1, ⌊120/70⌋) = 1`, so `repeat_factor × estimated_total = 70 < 120`
even though the estimate does not meet the target — the claimed
`repeat_factor × estimated_total_duration ≥ T × 60` fails. -/
theorem repeat_factor_undershoots :
    repeatFactor (2 * 60) 70 = 1 ∧
    ¬ ((repeatFactor (2 * 60) 70 : ℚ) * 70 ≥ 2 * 60) ∧
    ¬ ((70 : ℚ) ≥ 2 * 60) := by
  have h : repeatFactor (2 * 60) 70 = 1 := by
    unfold repeatFactor
    norm_num
  refine ⟨h, ?_, by norm_num⟩
  rw [h]
  norm_num

/-- Claim C2, amended: the planner computes
`repeat_factor = max(1, ⌊target_seconds / estimated_total⌋)`; this never
repeats unnecessarily (`repeat_factor = 1` whenever the estimate already
meets the target, and a factor above 1 never overshoots the target), but
it may undershoot the target by up to one pool duration:
`repeat_factor × estimated_total > target_seconds - estimated_total`. -/
theorem repeat_factor_planner (ts est : ℚ) (hest : 0 < est) :
    repeatFactor ts est = max 1 (Int.toNat ⌊ts / est⌋) ∧
    (ts ≤ est → repeatFactor ts est = 1) ∧
    ((repeatFactor ts est : ℚ) * est > ts - est) ∧
    (1 < repeatFactor ts est → (repeatFactor ts est : ℚ) * est ≤ ts) := by
  have hne : est ≠ 0 := ne_of_gt hest
  refine ⟨rfl, ?_, ?_, ?_⟩
  · intro hle
    have hdiv : ts / est ≤ 1 := (div_le_one hest).mpr hle
    have hfl : ⌊ts / est⌋ ≤ 1 := by
      calc ⌊ts / est⌋ ≤ ⌊(1 : ℚ)⌋ := Int.floor_le_floor hdiv
      _ = 1 := by norm_num
    have : Int.toNat ⌊ts / est⌋ ≤ 1 := by
      calc Int.toNat ⌊ts / est⌋ ≤ Int.toNat 1 := Int.toNat_le_toNat hfl
      _ = 1 := rfl
    unfold repeatFactor
    omega
  · rcases le_or_lt ⌊ts / est⌋ 0 with hle | hpos
    · have h1 : repeatFactor ts est = 1 := by
        have : Int.toNat ⌊ts / est⌋ = 0 := by omega
        unfold repeatFactor
        omega
      rw [h1]
      have hlt1 : ts / est < 1 := by
        have := Int.lt_floor_add_one (ts / est)
        have : ts / est < (⌊ts / est⌋ : ℚ) + 1 := Int.lt_floor_add_one _
        have hc : ((⌊ts / est⌋ : ℚ)) ≤ 0 := by exact_mod_cast hle
        linarith
      have hts : ts < est := (div_lt_one hest).mp hlt1
      push_cast
      linarith
    · have hto : (Int.toNat ⌊ts / est⌋ : ℤ) = ⌊ts / est⌋ :=
        Int.toNat_of_nonneg (le_of_lt hpos)
      have hmax : repeatFactor ts est = Int.toNat ⌊ts / est⌋ := by
        unfold repeatFactor
        omega
      rw [hmax]
      have hgt : (⌊ts / est⌋ : ℚ) > ts / est - 1 := Int.sub_one_lt_floor _
      have hcast : ((Int.toNat ⌊ts / est⌋ : ℕ) : ℚ) = ((⌊ts / est⌋ : ℤ) : ℚ) := by
        exact_mod_cast congrArg (fun z : ℤ => (z : ℚ)) hto
      rw [hcast]
      have := mul_lt_mul_of_pos_right hgt hest
      calc ts - est = (ts / est - 1) * est := by field_simp
      _ < (⌊ts / est⌋ : ℚ) * est := by exact mul_lt_mul_of_pos_right hgt hest
  · intro hgt1
    have hpos : 1 ≤ ⌊ts / est⌋ := by
      by_contra hc
      push_neg at hc
      have : Int.toNat ⌊ts / est⌋ ≤ 1 := by omega
      unfold repeatFactor at hgt1
      omega
    have hmax : repeatFactor ts est = Int.toNat ⌊ts / est⌋ := by
      unfold repeatFactor
      omega
    rw [hmax]
    have hto : (Int.toNat ⌊ts / est⌋ : ℤ) = ⌊ts / est⌋ :=
      Int.toNat_of_nonneg (by omega)
    have hcast : ((Int.toNat ⌊ts / est⌋ : ℕ) : ℚ) = ((⌊ts / est⌋ : ℤ) : ℚ) := by
      exact_mod_cast congrArg (fun z : ℤ => (z : ℚ)) hto
    rw [hcast]
    have hfle : ((⌊ts / est⌋ : ℤ) : ℚ) ≤ ts / est := Int.floor_le _
    calc ((⌊ts / est⌋ : ℤ) : ℚ) * est ≤ (ts / est) * est :=
      mul_le_mul_of_nonneg_right hfle (le_of_lt hest)
    _ = ts := by field_simp

/-- Witness for `repeat_factor_planner` at `target = 120 s`,
`estimate = 70 s`. -/
theorem repeat_factor_planner_witness :
    (0 : ℚ) < 70 ∧
    (repeatFactor 120 70 = max 1 (Int.toNat ⌊(120 : ℚ) / 70⌋) ∧
     ((120 : ℚ) ≤ 70 → repeatFactor 120 70 = 1) ∧
     ((repeatFactor 120 70 : ℚ) * 70 > 120 - 70) ∧
     (1 < repeatFactor 120 70 → (repeatFactor 120 70 : ℚ) * 70 ≤ 120)) :=
  ⟨by norm_num, repeat_factor_planner 120 70 (by norm_num)⟩

/-- Claim C10: the stereo and multichannel paths derive exactly the same
per-layer clip schedule — same discovery, same duration estimation, same
repeat-factor extension, same partitioning, same per-layer seed
`layer_idx × 12345`. -/
theorem stereo_multi_schedules_agree (E : EngineOracle) {σ : Type}
    (R : PyRandom σ) (clipsDir : String) (cfg : SpatialConfig)
    (shuffleArg reuseArg : Option Bool) (listing : List String) :
    stereoSchedule E R clipsDir cfg shuffleArg reuseArg listing =
      multiSchedule E R clipsDir cfg shuffleArg reuseArg listing := rfl

/-- Claim C8: when the directory listing contains no `.mp3` clip, both
compilers fail with the empty-pool outcome and attempt zero engine
invocations (empty event trace). -/
theorem empty_pool_aborts_before_engine (E : EngineOracle) {σ : Type}
    (R : PyRandom σ) (s0 : σ) (clipsDir : String) (cfg : SpatialConfig)
    (shuffleArg reuseArg : Option Bool) (listing : List String)
    (h : listing.filter (fun f => strEndsWith f ".mp3") = []) :
    (create_stereo_spatial_mix E R s0 clipsDir cfg shuffleArg reuseArg listing).outcome
        = .emptyPool ∧
    (create_stereo_spatial_mix E R s0 clipsDir cfg shuffleArg reuseArg listing).events
        = [] ∧
    (create_multichannel_wav E R s0 clipsDir cfg shuffleArg reuseArg listing).outcome
        = .emptyPool ∧
    (create_multichannel_wav E R s0 clipsDir cfg shuffleArg reuseArg listing).events
        = [] := by
  have hs : stereoAllClips listing = [] := by
    rw [stereoAllClips, h]
    rfl
  have hm : multiAllClips listing = [] := by
    rw [multiAllClips, h]
    rfl
  refine ⟨?_, ?_, ?_, ?_⟩ <;>
    simp [create_stereo_spatial_mix, create_multichannel_wav, hs, hm]

/-- Witness for `empty_pool_aborts_before_engine`: a directory holding
only `readme.txt`. -/
theorem empty_pool_aborts_witness :
    (["readme.txt"].filter (fun f => strEndsWith f ".mp3") = []) ∧
    ((create_stereo_spatial_mix testEngine revRandom () "output/clips" baseConfig
        none none ["readme.txt"]).outcome = .emptyPool ∧
     (create_stereo_spatial_mix testEngine revRandom () "output/clips" baseConfig
        none none ["readme.txt"]).events = [] ∧
     (create_multichannel_wav testEngine revRandom () "output/clips" baseConfig
        none none ["readme.txt"]).outcome = .emptyPool ∧
     (create_multichannel_wav testEngine revRandom () "output/clips" baseConfig
        none none ["readme.txt"]).events = []) :=
  ⟨by decide, empty_pool_aborts_before_engine testEngine revRandom () "output/clips"
    baseConfig none none ["readme.txt"] (by decide)⟩

/-- The clip sequence of `stereoLayerStep` does not depend on the
incoming RNG state, because `random.seed(layer_idx * 12345)` is called
before any use of the generator. -/
theorem stereoLayerStep_fst {σ : Type} (R : PyRandom σ) (shuffle reuse : Bool)
    (numLayers cpl : Nat) (clips : List String) (idx : Nat) (s : σ) :
    (stereoLayerStep R shuffle reuse numLayers cpl clips idx s).1 =
      stereoLayerSeq R shuffle reuse numLayers cpl clips idx := by
  cases shuffle <;> cases reuse <;> simp [stereoLayerStep, stereoLayerSeq]

/-- Likewise for the multichannel path. -/
theorem multiLayerStep_fst {σ : Type} (R : PyRandom σ) (shuffle reuse : Bool)
    (numLayers cpl : Nat) (clips : List String) (idx : Nat) (s : σ) :
    (multiLayerStep R shuffle reuse numLayers cpl clips idx s).1 =
      multiLayerSeq R shuffle reuse numLayers cpl clips idx := by
  cases shuffle <;> cases reuse <;> simp [multiLayerStep, multiLayerSeq]

/-- The per-layer loop of the stereo compiler is insensitive to the
ambient RNG state at entry: every iteration either reseeds the
generator before using it or does not use it at all. -/
theorem st_loop_state_irrel (E : EngineOracle) {σ : Type} (R : PyRandom σ)
    (shuffle reuse : Bool) (numLayers cpl : Nat)
    (positions volumes offsets : List ℚ) (clips : List String) :
    ∀ (rem idx : Nat) (s s' : σ) (es : List Event) (ts : List String)
      (ps : List (List String)),
      stereoLayersLoop E R shuffle reuse numLayers cpl positions volumes offsets
          clips rem idx s es ts ps =
        stereoLayersLoop E R shuffle reuse numLayers cpl positions volumes offsets
          clips rem idx s' es ts ps := by
  intro rem
  induction rem with
  | zero => intro idx s s' es ts ps; rfl
  | succ n ih =>
    intro idx s s' es ts ps
    simp only [stereoLayersLoop]
    split
    · rfl
    · split
      · rw [stereoLayerStep_fst, stereoLayerStep_fst]
        exact ih (idx + 1) _ _ _ _ _
      · rfl

/-- The stereo compiler's whole observable result is independent of the
ambient RNG state at entry. -/
theorem st_run_state_irrel (E : EngineOracle) {σ : Type} (R : PyRandom σ)
    (s0 s0' : σ) (clipsDir : String) (cfg : SpatialConfig)
    (shuffleArg reuseArg : Option Bool) (listing : List String) :
    create_stereo_spatial_mix E R s0 clipsDir cfg shuffleArg reuseArg listing =
      create_stereo_spatial_mix E R s0' clipsDir cfg shuffleArg reuseArg listing := by
  simp only [create_stereo_spatial_mix]
  rw [st_loop_state_irrel E R _ _ _ _ _ _ _ _ _ _ s0 s0']

/-- Claim C3, counterexample: with `shuffle = true`, `reuse = true`,
`num_layers = 3` and a pool of one clip, all three layers receive the
identical sequence `["a.mp3"]` — the sequences of distinct layers do
not differ (the concrete RNG model shuffles by reversal, a permutation;
on a one-element pool every permutation, including the one the real
Mersenne-Twister shuffle produces, yields the same sequence). -/
theorem identical_layer_sequences :
    stereoSchedule testEngine revRandom "output/clips" baseConfig none none
        ["a.mp3"] = [["a.mp3"], ["a.mp3"], ["a.mp3"]] := by
  decide

/-- Claim C3, amended: with `reuse = true` and `shuffle = true` every
layer's scheduled sequence is a permutation of the (possibly repeated)
pool, and the whole observable result of a run is deterministic — it
does not depend on the ambient RNG state at entry, because each layer
reseeds the generator with its own `layer_idx × 12345` seed.  Distinct
layers use distinct seeds but their sequences are not guaranteed to
differ (they coincide e.g. on a one-clip pool). -/
theorem shuffle_perm_deterministic (E : EngineOracle) {σ : Type}
    (R : PyRandom σ) (s0 s0' : σ) (clipsDir : String) (cfg : SpatialConfig)
    (shuffleArg reuseArg : Option Bool) (listing : List String)
    (hR : ∀ (s : σ) (l : List String), ((R.shuffle s l).1).Perm l)
    (hsh : shuffleArg.getD cfg.shuffleClips = true)
    (hre : reuseArg.getD cfg.reuseClips = true) :
    (∀ seq ∈ stereoSchedule E R clipsDir cfg shuffleArg reuseArg listing,
      seq.Perm (stereoExtendClips cfg (reuseArg.getD cfg.reuseClips)
        (stereoEstimatedTotal E clipsDir (stereoAllClips listing))
        (stereoAllClips listing))) ∧
    create_stereo_spatial_mix E R s0 clipsDir cfg shuffleArg reuseArg listing =
      create_stereo_spatial_mix E R s0' clipsDir cfg shuffleArg reuseArg listing ∧
    (∀ i j : Nat, i ≠ j → i * 12345 ≠ j * 12345) := by
  refine ⟨?_, st_run_state_irrel E R s0 s0' clipsDir cfg shuffleArg reuseArg listing,
    fun i j hij => by omega⟩
  intro seq hseq
  rw [hre]
  rw [stereoSchedule] at hseq
  simp only [List.mem_map, List.mem_range] at hseq
  obtain ⟨i, _, hi⟩ := hseq
  rw [stereoLayerSeq, hsh, hre] at hi
  simp only [if_true] at hi
  rw [← hi]
  exact hR _ _

/-- Witness for `shuffle_perm_deterministic`: the reversal RNG model, a
two-clip pool, and the default configuration. -/
theorem shuffle_perm_deterministic_witness :
    (∀ (s : Unit) (l : List String), ((revRandom.shuffle s l).1).Perm l) ∧
    ((none : Option Bool).getD baseConfig.shuffleClips = true) ∧
    ((none : Option Bool).getD baseConfig.reuseClips = true) ∧
    ((∀ seq ∈ stereoSchedule testEngine revRandom "output/clips" baseConfig none none
        ["a.mp3", "b.mp3"],
      seq.Perm (stereoExtendClips baseConfig ((none : Option Bool).getD baseConfig.reuseClips)
        (stereoEstimatedTotal testEngine "output/clips" (stereoAllClips ["a.mp3", "b.mp3"]))
        (stereoAllClips ["a.mp3", "b.mp3"]))) ∧
    create_stereo_spatial_mix testEngine revRandom () "output/clips" baseConfig none none
        ["a.mp3", "b.mp3"] =
      create_stereo_spatial_mix testEngine revRandom () "output/clips" baseConfig none none
        ["a.mp3", "b.mp3"] ∧
    (∀ i j : Nat, i ≠ j → i * 12345 ≠ j * 12345)) :=
  ⟨fun _ l => List.reverse_perm l, rfl, rfl,
    shuffle_perm_deterministic testEngine revRandom () () "output/clips" baseConfig
      none none ["a.mp3", "b.mp3"] (fun _ l => List.reverse_perm l) rfl rfl⟩

/-- `concatCount` distributes over trace concatenation. -/
theorem concatCount_append (a b : List Event) :
    concatCount (a ++ b) = concatCount a + concatCount b := by
  simp [concatCount, List.filter_append]

/-- A trace of probe invocations contains no concat invocation. -/
theorem concatCount_map_probe {α : Type} (g : α → String) (l : List α) :
    concatCount (l.map (fun c => Event.probe (g c))) = 0 := by
  induction l with
  | nil => rfl
  | cons a as ih => simp [concatCount, List.filter]

/-- A trace of concat invocations has one concat per element. -/
theorem concatCount_map_concat (l : List Nat) :
    concatCount (l.map Event.concat) = l.length := by
  induction l with
  | nil => rfl
  | cons a as ih => simpa [concatCount, List.filter] using ih

/-- When `stereo_positions` is the shortest of the three config arrays
and every concat succeeds, the stereo per-layer loop stops with an
uncaught `IndexError` exactly when it reaches layer index
`positions.length`, having invoked one concat per in-range layer and
leaving all their temporary tracks on disk (no cleanup runs on this
exception path). -/
theorem st_loop_index_stop (E : EngineOracle) {σ : Type} (R : PyRandom σ)
    (shuffle reuse : Bool) (numLayers cpl : Nat)
    (positions volumes offsets : List ℚ) (clips : List String)
    (hpv : positions.length ≤ volumes.length)
    (hpo : positions.length ≤ offsets.length)
    (hcat : ∀ i, i < positions.length → E.concatOk i = true) :
    ∀ (rem idx : Nat) (s : σ) (es : List Event) (ts : List String)
      (ps : List (List String)),
      idx ≤ positions.length → positions.length < idx + rem →
      stereoLayersLoop E R shuffle reuse numLayers cpl positions volumes offsets
          clips rem idx s es ts ps =
        ⟨some .indexError,
         es ++ (List.range' idx (positions.length - idx)).map Event.concat,
         ts ++ (List.range' idx (positions.length - idx)).map stereoTempPath,
         ps ++ (List.range' idx (positions.length - idx)).map
           (stereoLayerSeq R shuffle reuse numLayers cpl clips)⟩ := by
  intro rem
  induction rem with
  | zero => intro idx s es ts ps h1 h2; omega
  | succ n ih =>
    intro idx s es ts ps h1 h2
    rcases Nat.eq_or_lt_of_le h1 with heq | hlt
    · have hc : positions.length ≤ idx := le_of_eq heq.symm
      have h0 : positions.length - idx = 0 := by omega
      simp only [stereoLayersLoop]
      rw [if_pos (Or.inl hc)]
      simp [h0]
    · have hnc : ¬ (positions.length ≤ idx ∨ volumes.length ≤ idx ∨
        offsets.length ≤ idx) := by
        push_neg
        exact ⟨hlt, lt_of_lt_of_le hlt hpv, lt_of_lt_of_le hlt hpo⟩
      simp only [stereoLayersLoop]
      rw [if_neg hnc, if_pos (hcat idx hlt)]
      rw [stereoLayerStep_fst]
      rw [ih (idx + 1) _ _ _ _ (by omega) (by omega)]
      have hsplit : positions.length - idx = (positions.length - (idx + 1)) + 1 := by
        omega
      simp only [hsplit, List.range'_succ, List.map_cons]
      simp [List.append_assoc]

/-- When every layer index is within every config array and some layer's
concat invocation fails, the stereo per-layer loop stops at the first
failing layer with the concat-failure outcome, removes every temporary
track, and never reaches the render step. -/
theorem st_loop_concat_fail (E : EngineOracle) {σ : Type} (R : PyRandom σ)
    (shuffle reuse : Bool) (numLayers cpl : Nat)
    (positions volumes offsets : List ℚ) (clips : List String) :
    ∀ (rem idx : Nat) (s : σ) (es : List Event) (ts : List String)
      (ps : List (List String)),
      (∀ i, i < idx + rem →
        i < positions.length ∧ i < volumes.length ∧ i < offsets.length) →
      (∃ k, idx ≤ k ∧ k < idx + rem ∧ E.concatOk k = false) →
      ∃ j, idx ≤ j ∧ j < idx + rem ∧ E.concatOk j = false ∧
        stereoLayersLoop E R shuffle reuse numLayers cpl positions volumes offsets
            clips rem idx s es ts ps =
          ⟨some (.concatFailed j),
           es ++ (List.range' idx (j - idx)).map Event.concat ++ [Event.concat j],
           [],
           ps ++ (List.range' idx (j - idx)).map
             (stereoLayerSeq R shuffle reuse numLayers cpl clips)⟩ := by
  intro rem
  induction rem with
  | zero =>
    intro idx s es ts ps _ hk
    obtain ⟨k, h1, h2, _⟩ := hk
    omega
  | succ n ih =>
    intro idx s es ts ps hb hk
    have hidx : idx < positions.length ∧ idx < volumes.length ∧
        idx < offsets.length := hb idx (by omega)
    have hnc : ¬ (positions.length ≤ idx ∨ volumes.length ≤ idx ∨
        offsets.length ≤ idx) := by
      push_neg
      exact ⟨hidx.1, hidx.2.1, hidx.2.2⟩
    cases hcase : E.concatOk idx with
    | false =>
      refine ⟨idx, le_refl idx, by omega, hcase, ?_⟩
      simp only [stereoLayersLoop]
      rw [if_neg hnc, if_neg (by simp [hcase])]
      simp
    | true =>
      obtain ⟨k, hk1, hk2, hk3⟩ := hk
      have hki : idx + 1 ≤ k := by
        rcases Nat.eq_or_lt_of_le hk1 with he | hl
        · rw [← he] at hk3
          rw [hk3] at hcase
          exact absurd hcase (by simp)
        · omega
      obtain ⟨j, hj1, hj2, hj3, hj4⟩ := ih (idx + 1) (stereoLayerStep R shuffle
        reuse numLayers cpl clips idx s).2 (es ++ [Event.concat idx])
        (ts ++ [stereoTempPath idx])
        (ps ++ [stereoLayerSeq R shuffle reuse numLayers cpl clips idx])
        (fun i hi => hb i (by omega)) ⟨k, hki, by omega, hk3⟩
      refine ⟨j, by omega, by omega, hj3, ?_⟩
      simp only [stereoLayersLoop]
      rw [if_neg hnc, if_pos hcase]
      rw [stereoLayerStep_fst]
      rw [hj4]
      have hsplit : j - idx = (j - (idx + 1)) + 1 := by omega
      simp only [hsplit, List.range'_succ, List.map_cons]
      simp [List.append_assoc]

/-- A mismatched configuration: two pan positions but `num_layers = 3`
(the other arrays have three entries). -/
def mismatchConfig : SpatialConfig :=
  ⟨3, [-(7 : ℚ)/10, 0], [6/10, 8/10, 6/10], [0, 5, 10], false, true, none⟩

/-- The stereo run under the mismatched configuration, on a one-clip
pool, with every engine invocation succeeding. -/
def mismatchRun : RunResult :=
  create_stereo_spatial_mix testEngine revRandom () "output/clips"
    mismatchConfig none none ["a.mp3"]

/-- Claim C1, counterexample: with `pan_positions` of length 2 and
`num_layers = 3`, the run does not raise any eager configuration error:
it scans and probes the pool (one probe event), builds the layer tracks
for both in-range layers (two concat invocations, two temporary tracks
left behind), and only then dies with an uncaught `IndexError` at layer
index 2 — so layer tracks *are* built under the mismatched
configuration, and nothing is raised before the pool scan. -/
theorem mismatch_builds_tracks :
    mismatchRun.outcome = .indexError ∧
    concatCount mismatchRun.events = 2 ∧
    mismatchRun.temps.length = 2 ∧
    Event.probe (pyJoin "output/clips" "a.mp3") ∈ mismatchRun.events := by
  decide

/-- Claim C1, amended: no eager validation exists.  With
`pan_positions` shorter than `num_layers` (and not longer than the
other two arrays), on a non-empty pool with succeeding concats the
stereo compiler raises an uncaught `IndexError` only on reaching the
first out-of-range layer index: the pool has already been scanned and
probed (a probe event precedes the failure) and one layer track has
been built per in-range layer (`positions.length` concat invocations;
their temporary tracks are left on disk, as the exception path runs no
cleanup). -/
theorem lazy_index_error_after_building (E : EngineOracle) {σ : Type}
    (R : PyRandom σ) (s0 : σ) (clipsDir : String) (cfg : SpatialConfig)
    (shuffleArg reuseArg : Option Bool) (listing : List String)
    (hp : cfg.stereoPositions.length < cfg.numLayers)
    (hpv : cfg.stereoPositions.length ≤ cfg.volumeAdjustments.length)
    (hpo : cfg.stereoPositions.length ≤ cfg.timeOffsets.length)
    (hne : stereoAllClips listing ≠ [])
    (hcat : ∀ i, i < cfg.stereoPositions.length → E.concatOk i = true) :
    (create_stereo_spatial_mix E R s0 clipsDir cfg shuffleArg reuseArg listing).outcome
        = .indexError ∧
    concatCount (create_stereo_spatial_mix E R s0 clipsDir cfg shuffleArg reuseArg
        listing).events = cfg.stereoPositions.length ∧
    (create_stereo_spatial_mix E R s0 clipsDir cfg shuffleArg reuseArg
        listing).temps.length = cfg.stereoPositions.length ∧
    (∃ pth, Event.probe pth ∈
      (create_stereo_spatial_mix E R s0 clipsDir cfg shuffleArg reuseArg
        listing).events) := by
  have hie : (stereoAllClips listing).isEmpty = false :=
    List.isEmpty_eq_false.mpr hne
  obtain ⟨a, as, hcons⟩ := List.exists_cons_of_ne_nil hne
  simp only [create_stereo_spatial_mix, hie, Bool.false_eq_true, if_false]
  rw [st_loop_index_stop E R _ _ _ _ _ _ _ _ hpv hpo hcat _ _ _ _ _ _
    (Nat.zero_le _) (by omega)]
  simp only [Nat.sub_zero]
  refine ⟨trivial, ?_, ?_, ?_⟩
  · rw [concatCount_append, concatCount_map_probe, concatCount_map_concat]
    simp [List.length_range']
  · simp [List.length_range']
  · refine ⟨pyJoin clipsDir a, ?_⟩
    apply List.mem_append_left
    apply List.mem_map_of_mem
    rw [hcons]
    have hmin : min 5 (a :: as).length = (min 4 as.length) + 1 := by
      simp [List.length_cons]
      omega
    rw [hmin, List.take_succ_cons]
    exact List.mem_cons_self a _

/-- When every layer index is within `time_offsets` and every concat
succeeds, the multichannel per-layer loop runs to completion. -/
theorem mc_loop_halted_none (E : EngineOracle) {σ : Type} (R : PyRandom σ)
    (shuffle reuse : Bool) (numLayers cpl : Nat)
    (offsets : List ℚ) (clips : List String) :
    ∀ (rem idx : Nat) (s : σ) (es : List Event) (ts : List String)
      (ps : List (List String)) (m : ℚ),
      (∀ i, i < idx + rem → i < offsets.length ∧ E.concatOk i = true) →
      (multiLayersLoop E R shuffle reuse numLayers cpl offsets clips
        rem idx s es ts ps m).halted = none := by
  intro rem
  induction rem with
  | zero => intro idx s es ts ps m _; rfl
  | succ n ih =>
    intro idx s es ts ps m hb
    have hidx := hb idx (by omega)
    simp only [multiLayersLoop]
    rw [if_neg (by omega), if_pos hidx.2]
    exact ih (idx + 1) _ _ _ _ _ (fun i hi => hb i (by omega))

/-- When every layer index is within `time_offsets` and some layer's
concat fails, the multichannel per-layer loop stops at the first failing
layer with the concat-failure outcome, removes every temporary track,
and never reaches the render step. -/
theorem mc_loop_concat_fail (E : EngineOracle) {σ : Type} (R : PyRandom σ)
    (shuffle reuse : Bool) (numLayers cpl : Nat)
    (offsets : List ℚ) (clips : List String) :
    ∀ (rem idx : Nat) (s : σ) (es : List Event) (ts : List String)
      (ps : List (List String)) (m : ℚ),
      (∀ i, i < idx + rem → i < offsets.length) →
      (∃ k, idx ≤ k ∧ k < idx + rem ∧ E.concatOk k = false) →
      ∃ j lpm, idx ≤ j ∧ j < idx + rem ∧ E.concatOk j = false ∧
        multiLayersLoop E R shuffle reuse numLayers cpl offsets clips
            rem idx s es ts ps m =
          ⟨some (.concatFailed j),
           es ++ ((List.range' idx (j - idx)).flatMap
             (fun i => [Event.concat i, Event.probe (multiTempPath i)]))
             ++ [Event.concat j],
           [],
           ps ++ (List.range' idx (j - idx)).map
             (multiLayerSeq R shuffle reuse numLayers cpl clips),
           lpm⟩ := by
  intro rem
  induction rem with
  | zero =>
    intro idx s es ts ps m _ hk
    obtain ⟨k, h1, h2, _⟩ := hk
    omega
  | succ n ih =>
    intro idx s es ts ps m hb hk
    have hidx : idx < offsets.length := hb idx (by omega)
    cases hcase : E.concatOk idx with
    | false =>
      refine ⟨idx, m, le_refl idx, by omega, hcase, ?_⟩
      simp only [multiLayersLoop]
      rw [if_neg (by omega), if_neg (by simp [hcase])]
      simp
    | true =>
      obtain ⟨k, hk1, hk2, hk3⟩ := hk
      have hki : idx + 1 ≤ k := by
        rcases Nat.eq_or_lt_of_le hk1 with he | hl
        · rw [← he] at hk3
          rw [hk3] at hcase
          exact absurd hcase (by simp)
        · omega
      obtain ⟨j, lpm, hj1, hj2, hj3, hj4⟩ := ih (idx + 1)
        (multiLayerStep R shuffle reuse numLayers cpl clips idx s).2
        (es ++ [Event.concat idx, Event.probe (multiTempPath idx)])
        (ts ++ [multiTempPath idx])
        (ps ++ [multiLayerSeq R shuffle reuse numLayers cpl clips idx])
        (max m (get_audio_duration E (multiTempPath idx) + offsets.getD idx 0))
        (fun i hi => hb i (by omega)) ⟨k, hki, by omega, hk3⟩
      refine ⟨j, lpm, by omega, by omega, hj3, ?_⟩
      simp only [multiLayersLoop]
      rw [if_neg (by omega), if_pos hcase]
      rw [multiLayerStep_fst]
      rw [hj4]
      have hsplit : j - idx = (j - (idx + 1)) + 1 := by omega
      simp only [hsplit, List.range'_succ, List.map_cons, List.flatMap_cons]
      simp [List.append_assoc]

/-- An engine oracle whose probes fail exactly on the multichannel
temporary `.wav` tracks (clip probes still succeed), with every
invocation exiting 0. -/
def wavFailEngine : EngineOracle :=
  ⟨fun p => if strEndsWith p ".wav" then none else some 10, fun _ => true, true⟩

/-- The multichannel run whose layer-track probes all fail, used
below. -/
def probeFailRun : MultiRunResult :=
  create_multichannel_wav wavFailEngine revRandom () "output/clips" baseConfig
    none none ["a.mp3"]

/-- Claim C7, counterexample: when the duration probe of every
concatenated layer track fails, the multichannel compiler does not fail
— it proceeds to the render invocation and emits the joined file
(outcome `ok`), treating each unmeasurable track as 0-length. -/
theorem probe_failure_emits_file :
    probeFailRun.outcome = .ok ∧
    Event.render ∈ probeFailRun.events ∧
    get_audio_duration wavFailEngine (multiTempPath 0) = 0 := by
  refine ⟨by decide, by decide, by decide⟩

/-- Claim C7, amended: a failed duration probe of a layer track is
silently tolerated on the multichannel path: `get_audio_duration`
returns `0.0` for it, the run proceeds, renders, and emits the joined
multichannel file (outcome `ok`). -/
theorem probe_failure_tolerated (E : EngineOracle) {σ : Type}
    (R : PyRandom σ) (s0 : σ) (clipsDir : String) (cfg : SpatialConfig)
    (shuffleArg reuseArg : Option Bool) (listing : List String) (k : Nat)
    (hne : multiAllClips listing ≠ [])
    (hoff : cfg.numLayers ≤ cfg.timeOffsets.length)
    (hcat : ∀ i, i < cfg.numLayers → E.concatOk i = true)
    (hrend : E.renderOk = true)
    (_hk : k < cfg.numLayers)
    (hfail : E.probe (multiTempPath k) = none) :
    (create_multichannel_wav E R s0 clipsDir cfg shuffleArg reuseArg
        listing).outcome = .ok ∧
    Event.render ∈ (create_multichannel_wav E R s0 clipsDir cfg shuffleArg
        reuseArg listing).events ∧
    get_audio_duration E (multiTempPath k) = 0 := by
  have hie : (multiAllClips listing).isEmpty = false :=
    List.isEmpty_eq_false.mpr hne
  refine ⟨?_, ?_, by simp [get_audio_duration, hfail]⟩
  · simp only [create_multichannel_wav, hie, Bool.false_eq_true, if_false]
    split
    · next o heq =>
        rw [mc_loop_halted_none E R _ _ _ _ _ _ _ _ _ _ _ _ _
          (fun i hi => ⟨by omega, hcat i (by omega)⟩)] at heq
        cases heq
    · rw [hrend]
      simp
  · simp only [create_multichannel_wav, hie, Bool.false_eq_true, if_false]
    split
    · next o heq =>
        rw [mc_loop_halted_none E R _ _ _ _ _ _ _ _ _ _ _ _ _
          (fun i hi => ⟨by omega, hcat i (by omega)⟩)] at heq
        cases heq
    · rw [hrend]
      simp

/-- Witness for `probe_failure_tolerated`: the `.wav`-probe-failing
engine on a one-clip pool with the default configuration, `k = 0`. -/
theorem probe_failure_tolerated_witness :
    (multiAllClips ["a.mp3"] ≠ []) ∧
    (baseConfig.numLayers ≤ baseConfig.timeOffsets.length) ∧
    (∀ i, i < baseConfig.numLayers → wavFailEngine.concatOk i = true) ∧
    (wavFailEngine.renderOk = true) ∧
    ((0 : Nat) < baseConfig.numLayers) ∧
    (wavFailEngine.probe (multiTempPath 0) = none) ∧
    ((create_multichannel_wav wavFailEngine revRandom () "output/clips" baseConfig
        none none ["a.mp3"]).outcome = .ok ∧
     Event.render ∈ (create_multichannel_wav wavFailEngine revRandom () "output/clips"
        baseConfig none none ["a.mp3"]).events ∧
     get_audio_duration wavFailEngine (multiTempPath 0) = 0) :=
  ⟨by decide, by decide, fun i _ => rfl, rfl, by decide, by decide,
    probe_failure_tolerated wavFailEngine revRandom () "output/clips" baseConfig
      none none ["a.mp3"] 0 (by decide) (by decide) (fun i _ => rfl) rfl
      (by decide) (by decide)⟩

/-- An engine oracle whose concat invocation succeeds for layer 0 and
fails for every later layer. -/
def concatFailEngine : EngineOracle :=
  ⟨fun _ => some 10, fun i => decide (i = 0), true⟩

/-- Claim C9: if any layer's concat invocation fails, both compilers
fail as a whole (no output is rendered — the render invocation never
happens) and every temporary layer track already built is deleted
before the failure is reported. -/
theorem concat_failure_fatal_cleanup (E : EngineOracle) {σ : Type}
    (R : PyRandom σ) (s0 : σ) (clipsDir : String) (cfg : SpatialConfig)
    (shuffleArg reuseArg : Option Bool) (listing : List String)
    (hne : stereoAllClips listing ≠ [])
    (hlp : cfg.numLayers ≤ cfg.stereoPositions.length)
    (hlv : cfg.numLayers ≤ cfg.volumeAdjustments.length)
    (hlo : cfg.numLayers ≤ cfg.timeOffsets.length)
    (hfail : ∃ k, k < cfg.numLayers ∧ E.concatOk k = false) :
    ((∃ j, (create_stereo_spatial_mix E R s0 clipsDir cfg shuffleArg reuseArg
        listing).outcome = .concatFailed j) ∧
     (create_stereo_spatial_mix E R s0 clipsDir cfg shuffleArg reuseArg
        listing).temps = [] ∧
     Event.render ∉ (create_stereo_spatial_mix E R s0 clipsDir cfg shuffleArg
        reuseArg listing).events) ∧
    ((∃ j, (create_multichannel_wav E R s0 clipsDir cfg shuffleArg reuseArg
        listing).outcome = .concatFailed j) ∧
     (create_multichannel_wav E R s0 clipsDir cfg shuffleArg reuseArg
        listing).temps = [] ∧
     Event.render ∉ (create_multichannel_wav E R s0 clipsDir cfg shuffleArg
        reuseArg listing).events) := by
  obtain ⟨k, hkN, hkF⟩ := hfail
  have hieS : (stereoAllClips listing).isEmpty = false :=
    List.isEmpty_eq_false.mpr hne
  have hneM : multiAllClips listing ≠ [] := hne
  have hieM : (multiAllClips listing).isEmpty = false :=
    List.isEmpty_eq_false.mpr hneM
  constructor
  · obtain ⟨j, hj1, hj2, hj3, hj4⟩ := st_loop_concat_fail E R
      (shuffleArg.getD cfg.shuffleClips) (reuseArg.getD cfg.reuseClips)
      cfg.numLayers _ cfg.stereoPositions cfg.volumeAdjustments cfg.timeOffsets
      _ cfg.numLayers 0 s0
      ((( stereoAllClips listing).take (min 5 (stereoAllClips listing).length)).map
        (fun c => Event.probe (pyJoin clipsDir c))) [] []
      (fun i hi => ⟨by omega, by omega, by omega⟩)
      ⟨k, Nat.zero_le k, by omega, hkF⟩
    simp only [create_stereo_spatial_mix, hieS, Bool.false_eq_true, if_false]
    rw [hj4]
    refine ⟨⟨j, by simp⟩, by simp, ?_⟩
    simp only [List.mem_append, List.mem_map]
    intro hmem
    simp at hmem
  · obtain ⟨j, lpm, hj1, hj2, hj3, hj4⟩ := mc_loop_concat_fail E R
      (shuffleArg.getD cfg.shuffleClips) (reuseArg.getD cfg.reuseClips)
      cfg.numLayers _ cfg.timeOffsets
      _ cfg.numLayers 0 s0
      ((( multiAllClips listing).take (min 5 (multiAllClips listing).length)).map
        (fun c => Event.probe (pyJoin clipsDir c))) [] [] 0
      (fun i hi => by omega)
      ⟨k, Nat.zero_le k, by omega, hkF⟩
    simp only [create_multichannel_wav, hieM, Bool.false_eq_true, if_false]
    rw [hj4]
    refine ⟨⟨j, by simp⟩, by simp, ?_⟩
    simp only [List.mem_append, List.mem_map, List.mem_flatMap]
    intro hmem
    simp at hmem

/-- Witness for `concat_failure_fatal_cleanup`: an engine whose concat
fails from layer 1 on, a one-clip pool, the default configuration. -/
theorem concat_failure_fatal_cleanup_witness :
    (stereoAllClips ["a.mp3"] ≠ []) ∧
    (baseConfig.numLayers ≤ baseConfig.stereoPositions.length) ∧
    (baseConfig.numLayers ≤ baseConfig.volumeAdjustments.length) ∧
    (baseConfig.numLayers ≤ baseConfig.timeOffsets.length) ∧
    (∃ k, k < baseConfig.numLayers ∧ concatFailEngine.concatOk k = false) ∧
    (((∃ j, (create_stereo_spatial_mix concatFailEngine revRandom () "output/clips"
        baseConfig none none ["a.mp3"]).outcome = .concatFailed j) ∧
      (create_stereo_spatial_mix concatFailEngine revRandom () "output/clips"
        baseConfig none none ["a.mp3"]).temps = [] ∧
      Event.render ∉ (create_stereo_spatial_mix concatFailEngine revRandom ()
        "output/clips" baseConfig none none ["a.mp3"]).events) ∧
     ((∃ j, (create_multichannel_wav concatFailEngine revRandom () "output/clips"
        baseConfig none none ["a.mp3"]).outcome = .concatFailed j) ∧
      (create_multichannel_wav concatFailEngine revRandom () "output/clips"
        baseConfig none none ["a.mp3"]).temps = [] ∧
      Event.render ∉ (create_multichannel_wav concatFailEngine revRandom ()
        "output/clips" baseConfig none none ["a.mp3"]).events)) :=
  ⟨by decide, by decide, by decide, by decide, ⟨1, by decide, by decide⟩,
    concat_failure_fatal_cleanup concatFailEngine revRandom () "output/clips"
      baseConfig none none ["a.mp3"] (by decide) (by decide) (by decide)
      (by decide) ⟨1, by decide, by decide⟩⟩

/-- Witness for `lazy_index_error_after_building`: the mismatched
configuration on a different one-clip pool. -/
theorem lazy_index_error_witness :
    (mismatchConfig.stereoPositions.length < mismatchConfig.numLayers) ∧
    (mismatchConfig.stereoPositions.length ≤ mismatchConfig.volumeAdjustments.length) ∧
    (mismatchConfig.stereoPositions.length ≤ mismatchConfig.timeOffsets.length) ∧
    (stereoAllClips ["b.mp3"] ≠ []) ∧
    (∀ i, i < mismatchConfig.stereoPositions.length → testEngine.concatOk i = true) ∧
    ((create_stereo_spatial_mix testEngine revRandom () "output/clips" mismatchConfig
        none none ["b.mp3"]).outcome = .indexError ∧
     concatCount (create_stereo_spatial_mix testEngine revRandom () "output/clips"
        mismatchConfig none none ["b.mp3"]).events = mismatchConfig.stereoPositions.length ∧
     (create_stereo_spatial_mix testEngine revRandom () "output/clips" mismatchConfig
        none none ["b.mp3"]).temps.length = mismatchConfig.stereoPositions.length ∧
     (∃ pth, Event.probe pth ∈
       (create_stereo_spatial_mix testEngine revRandom () "output/clips" mismatchConfig
          none none ["b.mp3"]).events)) :=
  ⟨by decide, by decide, by decide, by decide, fun i _ => rfl,
    lazy_index_error_after_building testEngine revRandom () "output/clips"
      mismatchConfig none none ["b.mp3"] (by decide) (by decide) (by decide)
      (by decide) (fun i _ => rfl)⟩

/-- The initial accumulator never exceeds a running-maximum fold. -/
theorem foldl_max_init_le (f : Nat → ℚ) :
    ∀ (l : List Nat) (a : ℚ), a ≤ l.foldl (fun acc i => max acc (f i)) a := by
  intro l
  induction l with
  | nil => intro a; exact le_refl a
  | cons x xs ih =>
    intro a
    exact le_trans (le_max_left a (f x)) (ih (max a (f x)))

/-- Every listed value is bounded by the running-maximum fold. -/
theorem foldl_max_mem_le (f : Nat → ℚ) :
    ∀ (l : List Nat) (a : ℚ) (x : Nat), x ∈ l →
      f x ≤ l.foldl (fun acc i => max acc (f i)) a := by
  intro l
  induction l with
  | nil => intro a x hx; cases hx
  | cons y ys ih =>
    intro a x hx
    rcases List.mem_cons.mp hx with heq | hmem
    · subst heq
      exact le_trans (le_max_right a (f x)) (foldl_max_init_le f ys (max a (f x)))
    · exact ih (max a (f y)) x hmem

/-- A running-maximum fold is the initial accumulator or one of the
listed values. -/
theorem foldl_max_eq_init_or_mem (f : Nat → ℚ) :
    ∀ (l : List Nat) (a : ℚ),
      l.foldl (fun acc i => max acc (f i)) a = a ∨
      ∃ x ∈ l, l.foldl (fun acc i => max acc (f i)) a = f x := by
  intro l
  induction l with
  | nil => intro a; exact Or.inl rfl
  | cons y ys ih =>
    intro a
    rcases ih (max a (f y)) with h | ⟨x, hx, hfx⟩
    · rcases max_choice a (f y) with hm | hm
      · left
        simpa [hm] using h
      · right
        refine ⟨y, List.mem_cons_self y ys, ?_⟩
        simpa [hm] using h
    · exact Or.inr ⟨x, List.mem_cons_of_mem y hx, hfx⟩

/-- Claim C5: the multichannel shared duration is the maximum over all
layers of (that layer's measured track duration + its own offset), and
every `apad` node of the compiled filter graph pads its channel to
exactly that shared value. -/
theorem shared_pad_duration (E : EngineOracle) (offsets : List ℚ) (n : Nat)
    (hnn : ∀ i, i < n →
      0 ≤ get_audio_duration E (multiTempPath i) + offsets.getD i 0) :
    (∀ i, i < n → get_audio_duration E (multiTempPath i) + offsets.getD i 0 ≤
      multiMaxDuration E offsets n) ∧
    (0 < n → ∃ i, i < n ∧ multiMaxDuration E offsets n =
      get_audio_duration E (multiTempPath i) + offsets.getD i 0) ∧
    (∀ i d, FilterNode.apad i d ∈
        multiFilterParts n offsets (multiMaxDuration E offsets n) →
      d = multiMaxDuration E offsets n) ∧
    (∀ i, i < n → FilterNode.apad i (multiMaxDuration E offsets n) ∈
      multiFilterParts n offsets (multiMaxDuration E offsets n)) := by
  refine ⟨?_, ?_, ?_, ?_⟩
  · intro i hi
    exact foldl_max_mem_le _ (List.range n) 0 i (List.mem_range.mpr hi)
  · intro hn
    rcases foldl_max_eq_init_or_mem
        (fun i => get_audio_duration E (multiTempPath i) + offsets.getD i 0)
        (List.range n) 0 with h | ⟨x, hx, hfx⟩
    · refine ⟨0, hn, ?_⟩
      have hle : get_audio_duration E (multiTempPath 0) + offsets.getD 0 0 ≤
          multiMaxDuration E offsets n :=
        foldl_max_mem_le _ (List.range n) 0 0 (List.mem_range.mpr hn)
      have hz : multiMaxDuration E offsets n = 0 := h
      have h0 := hnn 0 hn
      rw [hz] at hle ⊢
      linarith
    · exact ⟨x, List.mem_range.mp hx, hfx⟩
  · intro i d hmem
    rcases List.mem_append.mp hmem with hfl | hjoin
    · obtain ⟨l, hl, hml⟩ := List.mem_flatten.mp hfl
      obtain ⟨k, _, rfl⟩ := List.mem_map.mp hl
      rcases List.mem_append.mp hml with hdel | hpad
      · by_cases hoff : (0 : ℚ) < offsets.getD k 0
        · rw [if_pos hoff] at hdel
          rcases List.mem_singleton.mp hdel with h
          cases h
        · rw [if_neg hoff] at hdel
          cases hdel
      · rcases List.mem_singleton.mp hpad with h
        injection h with h1 h2
    · rcases List.mem_singleton.mp hjoin with h
      cases h
  · intro i hi
    apply List.mem_append_left
    apply List.mem_flatten.mpr
    refine ⟨(if 0 < offsets.getD i 0
        then [FilterNode.adelay i (Int.toNat ⌊offsets.getD i 0 * 1000⌋)] else []) ++
      [FilterNode.apad i (multiMaxDuration E offsets n)], ?_, ?_⟩
    · exact List.mem_map.mpr ⟨i, List.mem_range.mpr hi, rfl⟩
    · exact List.mem_append_right _ (List.mem_singleton.mpr rfl)

/-- An engine oracle measuring layer track 0 at 10 s and every other
file at 7 s. -/
def padEngine : EngineOracle :=
  ⟨fun p => if p = multiTempPath 0 then some 10 else some 7, fun _ => true, true⟩

/-- Witness for `shared_pad_duration`, realizing the spec's example:
layer durations 10 s and 7 s with offsets 0 s and 3 s give a shared pad
duration of `max(10+0, 7+3) = 10` s for both channels. -/
theorem shared_pad_duration_witness :
    (∀ i, i < 2 →
      0 ≤ get_audio_duration padEngine (multiTempPath i) + [(0 : ℚ), 3].getD i 0) ∧
    ((∀ i, i < 2 → get_audio_duration padEngine (multiTempPath i) + [(0 : ℚ), 3].getD i 0 ≤
        multiMaxDuration padEngine [(0 : ℚ), 3] 2) ∧
     (0 < 2 → ∃ i, i < 2 ∧ multiMaxDuration padEngine [(0 : ℚ), 3] 2 =
        get_audio_duration padEngine (multiTempPath i) + [(0 : ℚ), 3].getD i 0) ∧
     (∀ i d, FilterNode.apad i d ∈
         multiFilterParts 2 [(0 : ℚ), 3] (multiMaxDuration padEngine [(0 : ℚ), 3] 2) →
       d = multiMaxDuration padEngine [(0 : ℚ), 3] 2) ∧
     (∀ i, i < 2 → FilterNode.apad i (multiMaxDuration padEngine [(0 : ℚ), 3] 2) ∈
       multiFilterParts 2 [(0 : ℚ), 3] (multiMaxDuration padEngine [(0 : ℚ), 3] 2))) ∧
    multiMaxDuration padEngine [(0 : ℚ), 3] 2 = 10 := by
  have h0 : get_audio_duration padEngine (multiTempPath 0) = 10 := by
    simp [get_audio_duration, padEngine]
  have h1 : get_audio_duration padEngine (multiTempPath 1) = 7 := by
    simp [get_audio_duration, padEngine,
      (by decide : multiTempPath 1 ≠ multiTempPath 0)]
  have hnn : ∀ i, i < 2 →
      0 ≤ get_audio_duration padEngine (multiTempPath i) + [(0 : ℚ), 3].getD i 0 := by
    intro i hi
    interval_cases i
    · rw [h0]; norm_num
    · rw [h1]; norm_num
  refine ⟨hnn, shared_pad_duration padEngine [(0 : ℚ), 3] 2 hnn, ?_⟩
  show (List.range 2).foldl
    (fun acc i => max acc (get_audio_duration padEngine (multiTempPath i) +
      [(0 : ℚ), 3].getD i 0)) 0 = 10
  rw [show List.range 2 = [0, 1] from by decide]
  simp only [List.foldl_cons, List.foldl_nil, h0, h1]
  norm_num

/-- Pointwise-permuted families have permuted concatenations. -/
theorem flatMap_perm_congr {α β : Type} (f g : α → List β) :
    ∀ (l : List α), (∀ x ∈ l, (f x).Perm (g x)) →
      (l.flatMap f).Perm (l.flatMap g) := by
  intro l
  induction l with
  | nil => intro _; exact List.Perm.refl _
  | cons x xs ih =>
    intro h
    simp only [List.flatMap_cons]
    exact List.Perm.append (h x (List.mem_cons_self x xs))
      (ih (fun y hy => h y (List.mem_cons_of_mem x hy)))

/-- A non-last layer's partition is the full-width slice of `cpl`
clips starting at `idx * cpl`. -/
theorem layerPartition_lt (numLayers cpl : Nat) (clips : List String)
    (idx : Nat) (hidx : idx < numLayers - 1) :
    layerPartition numLayers cpl clips idx = (clips.drop (idx * cpl)).take cpl := by
  simp only [layerPartition]
  rw [if_pos hidx]
  congr 1
  omega

/-- The last layer's partition absorbs the remainder: it runs to the
end of the pool. -/
theorem layerPartition_last (numLayers cpl : Nat) (clips : List String) :
    layerPartition numLayers cpl clips (numLayers - 1) =
      clips.drop ((numLayers - 1) * cpl) := by
  simp only [layerPartition]
  rw [if_neg (lt_irrefl _)]
  apply List.take_of_length_le
  rw [List.length_drop]

/-- The first `j` partitions concatenate to the first `j * cpl` clips. -/
theorem flatMap_partition_prefix (numLayers cpl : Nat) (clips : List String) :
    ∀ j, j ≤ numLayers - 1 →
      (List.range j).flatMap (layerPartition numLayers cpl clips) =
        clips.take (j * cpl) := by
  intro j
  induction j with
  | zero => intro _; simp
  | succ m ih =>
    intro hj
    rw [List.range_succ, List.flatMap_append, ih (by omega)]
    simp only [List.flatMap_cons, List.flatMap_nil, List.append_nil]
    rw [layerPartition_lt numLayers cpl clips m (by omega)]
    rw [Nat.succ_mul, List.take_add]

/-- All `numLayers` partitions concatenate to exactly the pool. -/
theorem flatMap_partition_eq (numLayers cpl : Nat) (clips : List String)
    (hN : 0 < numLayers) :
    (List.range numLayers).flatMap (layerPartition numLayers cpl clips) =
      clips := by
  have hr : List.range numLayers = List.range (numLayers - 1) ++ [numLayers - 1] := by
    rw [← List.range_succ]
    congr 1
    omega
  rw [hr, List.flatMap_append,
    flatMap_partition_prefix numLayers cpl clips (numLayers - 1) (le_refl _)]
  simp only [List.flatMap_cons, List.flatMap_nil, List.append_nil]
  rw [layerPartition_last]
  exact List.take_append_drop _ _

/-- On a duplicate-free pool, partitions of distinct layers are
disjoint. -/
theorem layerPartition_disjoint (numLayers cpl : Nat) (clips : List String)
    (hnd : clips.Nodup) :
    ∀ i j, i < numLayers → j < numLayers → i ≠ j →
      (layerPartition numLayers cpl clips i).Disjoint
        (layerPartition numLayers cpl clips j) := by
  have key : ∀ i j, i < j → j < numLayers →
      (layerPartition numLayers cpl clips i).Disjoint
        (layerPartition numLayers cpl clips j) := by
    intro i j hij hj
    have hi' : i < numLayers - 1 := by omega
    have hmul : i * cpl + cpl ≤ j * cpl := by
      have h1 : (i + 1) * cpl ≤ j * cpl := Nat.mul_le_mul_right cpl (by omega)
      rw [Nat.succ_mul] at h1
      exact h1
    have hdisj : (clips.take (i * cpl + cpl)).Disjoint
        (clips.drop (i * cpl + cpl)) := by
      have h := hnd
      rw [← List.take_append_drop (i * cpl + cpl) clips] at h
      exact List.disjoint_of_nodup_append h
    intro x hx1 hx2
    have hmem1 : x ∈ clips.take (i * cpl + cpl) := by
      rw [layerPartition_lt numLayers cpl clips i hi'] at hx1
      rw [List.take_add]
      exact List.subset_append_right _ _ hx1
    have hmem2 : x ∈ clips.drop (i * cpl + cpl) := by
      have hx2' : x ∈ clips.drop (j * cpl) := by
        simp only [layerPartition] at hx2
        exact List.take_subset _ _ hx2
      have heq : clips.drop (j * cpl) =
          (clips.drop (i * cpl + cpl)).drop (j * cpl - (i * cpl + cpl)) := by
        rw [List.drop_drop]
        congr 1
        omega
      rw [heq] at hx2'
      exact List.drop_subset _ _ hx2'
    exact hdisj hmem1 hmem2
  intro i j hi hj hij
  rcases Nat.lt_or_ge i j with h | h
  · exact key i j h hj
  · have hji : j < i := by omega
    exact (key j i hji hi).symm

/-- Claim C4: with `reuse = false`, pool size `M` and
`num_layers = N ≤ M`, the pool is split into `N` contiguous partitions
of `M / N` clips in which the last absorbs the remainder; layer `i`
receives (a permutation of, when shuffled) partition `i`; the
partitions are pairwise disjoint; and the layers' sequences together
are a permutation of the original pool — every clip appears in exactly
one layer, exactly once. -/
theorem no_reuse_partition {σ : Type} (R : PyRandom σ) (shuffle : Bool)
    (pool : List String) (N : Nat)
    (hR : ∀ (s : σ) (l : List String), ((R.shuffle s l).1).Perm l)
    (hN : 0 < N) (_hNM : N ≤ pool.length) (hnd : pool.Nodup) :
    (∀ i, i < N → (stereoLayerSeq R shuffle false N (pool.length / N) pool i).Perm
        (layerPartition N (pool.length / N) pool i)) ∧
    layerPartition N (pool.length / N) pool (N - 1) =
      pool.drop ((N - 1) * (pool.length / N)) ∧
    (∀ i j, i < N → j < N → i ≠ j →
      (layerPartition N (pool.length / N) pool i).Disjoint
        (layerPartition N (pool.length / N) pool j)) ∧
    ((List.range N).flatMap
        (fun i => stereoLayerSeq R shuffle false N (pool.length / N) pool i)).Perm
      pool := by
  have hperm : ∀ i, (stereoLayerSeq R shuffle false N (pool.length / N) pool i).Perm
      (layerPartition N (pool.length / N) pool i) := by
    intro i
    simp only [stereoLayerSeq, Bool.false_eq_true, if_false]
    cases shuffle with
    | false => simp
    | true => simpa using hR _ _
  refine ⟨fun i _ => hperm i, layerPartition_last N (pool.length / N) pool,
    layerPartition_disjoint N (pool.length / N) pool hnd, ?_⟩
  have h1 : ((List.range N).flatMap
      (fun i => stereoLayerSeq R shuffle false N (pool.length / N) pool i)).Perm
      ((List.range N).flatMap (layerPartition N (pool.length / N) pool)) :=
    flatMap_perm_congr _ _ (List.range N) (fun i _ => hperm i)
  rw [flatMap_partition_eq N (pool.length / N) pool hN] at h1
  exact h1

/-- Witness for `no_reuse_partition`: three clips split across two
layers (partition sizes 1 and 2), shuffled by the reversal RNG model. -/
theorem no_reuse_partition_witness :
    (∀ (s : Unit) (l : List String), ((revRandom.shuffle s l).1).Perm l) ∧
    ((0 : Nat) < 2) ∧ (2 ≤ (["a.mp3", "b.mp3", "c.mp3"] : List String).length) ∧
    (["a.mp3", "b.mp3", "c.mp3"] : List String).Nodup ∧
    ((∀ i, i < 2 → (stereoLayerSeq revRandom true false 2
        ((["a.mp3", "b.mp3", "c.mp3"] : List String).length / 2)
        ["a.mp3", "b.mp3", "c.mp3"] i).Perm
        (layerPartition 2 ((["a.mp3", "b.mp3", "c.mp3"] : List String).length / 2)
          ["a.mp3", "b.mp3", "c.mp3"] i)) ∧
     layerPartition 2 ((["a.mp3", "b.mp3", "c.mp3"] : List String).length / 2)
        ["a.mp3", "b.mp3", "c.mp3"] (2 - 1) =
       (["a.mp3", "b.mp3", "c.mp3"] : List String).drop
         ((2 - 1) * ((["a.mp3", "b.mp3", "c.mp3"] : List String).length / 2)) ∧
     (∀ i j, i < 2 → j < 2 → i ≠ j →
       (layerPartition 2 ((["a.mp3", "b.mp3", "c.mp3"] : List String).length / 2)
          ["a.mp3", "b.mp3", "c.mp3"] i).Disjoint
         (layerPartition 2 ((["a.mp3", "b.mp3", "c.mp3"] : List String).length / 2)
            ["a.mp3", "b.mp3", "c.mp3"] j)) ∧
     ((List.range 2).flatMap
         (fun i => stereoLayerSeq revRandom true false 2
           ((["a.mp3", "b.mp3", "c.mp3"] : List String).length / 2)
           ["a.mp3", "b.mp3", "c.mp3"] i)).Perm
       ["a.mp3", "b.mp3", "c.mp3"]) :=
  ⟨fun _ l => List.reverse_perm l, by decide, by decide, by decide,
    no_reuse_partition revRandom true ["a.mp3", "b.mp3", "c.mp3"] 2
      (fun _ l => List.reverse_perm l) (by decide) (by decide) (by decide)⟩
